import Mathlib

/- Verification of the sftp-mcp-server's ignore-pattern matching and
   directory-sync planning logic (src/main.py), shallowly embedded in Lean.

   Strings are handled through explicit, structurally recursive (or fuelled)
   helpers over `List Char` so that every definition evaluates inside the
   kernel on concrete inputs.  Each helper's doc comment names the Python
   primitive it models. -/

set_option autoImplicit false

namespace SftpSync

/-- Models Python `s.startswith(p)`: `charsStartWith s p = true` iff `p` is a
prefix of `s` (both as character lists). -/
def charsStartWith : List Char → List Char → Bool
  | _, [] => true
  | [], _ :: _ => false
  | c :: s, d :: p => c = d && charsStartWith s p

/-- Models Python `s.startswith(p)`. -/
def pyStartsWith (s p : String) : Bool :=
  charsStartWith s.data p.data

/-- Models Python `s.endswith(p)`. -/
def pyEndsWith (s p : String) : Bool :=
  charsStartWith s.data.reverse p.data.reverse

/-- Models Python `sub in s` (substring containment) on character lists:
true iff `sub` occurs contiguously inside `s`. -/
def charsContains (sub : List Char) : List Char → Bool
  | [] => charsStartWith [] sub
  | c :: t => charsStartWith (c :: t) sub || charsContains sub t

/-- Models Python `sub in s` (substring containment). -/
def pyIn (sub s : String) : Bool :=
  charsContains sub.data s.data

/-- The ASCII whitespace characters removed by Python `str.strip()`
(Unicode whitespace beyond ASCII is not modelled). -/
def pyIsSpace (c : Char) : Bool :=
  c = ' ' || c = '\t' || c = '\n' || c = '\r' || c = '\x0b' || c = '\x0c'

/-- Models Python `s.strip()`. -/
def pyStrip (s : String) : String :=
  ⟨((s.data.dropWhile pyIsSpace).reverse.dropWhile pyIsSpace).reverse⟩

/-- Models Python slicing `s[n:]`. -/
def pyDrop (s : String) (n : Nat) : String :=
  ⟨s.data.drop n⟩

/-- Models Python slicing `s[:-n]` (for `n ≤ len(s)`). -/
def pyDropRight (s : String) (n : Nat) : String :=
  ⟨s.data.take (s.data.length - n)⟩

/-- Fuelled worker for `pySplit`.  The fuel only bounds the recursion depth;
`pySplit` passes the input length, which suffices because every step consumes
at least one character (the separator is nonempty in all uses). -/
def pySplitGo (sep : List Char) : Nat → List Char → List Char → List (List Char)
  | _, [], acc => [acc.reverse]
  | 0, s, acc => [acc.reverse ++ s]
  | fuel + 1, c :: t, acc =>
      if charsStartWith (c :: t) sep then
        acc.reverse :: pySplitGo sep fuel (List.drop sep.length (c :: t)) []
      else
        pySplitGo sep fuel t (c :: acc)

/-- Models Python `s.split(sep)` for a nonempty separator `sep`. -/
def pySplit (s sep : String) : List String :=
  (pySplitGo sep.data s.data.length s.data []).map fun l => ⟨l⟩

/-- Models Python `s.replace(a, b)` where `a` and `b` are single characters
(the only way the source uses `str.replace`). -/
def pyReplace (s : String) (a b : Char) : String :=
  ⟨s.data.map fun c => if c = a then b else c⟩

/-- Models Python `os.path.basename(p)`: everything after the last slash. -/
def pyBasename (s : String) : String :=
  (pySplit s "/").getLastD ""

/-- Models POSIX `os.path.join(a, b)` on two arguments. -/
def posixJoin (a b : String) : String :=
  if pyStartsWith b "/" then b
  else if a = "" then b
  else if pyEndsWith a "/" then a ++ b
  else a ++ "/" ++ b

/-! Shell-glob matching, modelling Python's `fnmatch.fnmatch` on a POSIX
platform (`os.path.normcase` is the identity there, so matching is
case-sensitive, as the source relies on). -/

/-- Matches one character against the body of a `[...]` character class:
`a-b` ranges and literal characters, as in `fnmatch.translate`. -/
def matchClassChars : List Char → Char → Bool
  | a :: '-' :: b :: rest, c => (a ≤ c && c ≤ b) || matchClassChars rest c
  | a :: rest, c => (a = c) || matchClassChars rest c
  | [], _ => false

/-- Splits a list at the first `']'`, returning content before it and the
rest after it. -/
def splitAtClose : List Char → Option (List Char × List Char)
  | [] => none
  | ']' :: t => some ([], t)
  | c :: t => (splitAtClose t).map fun p => (c :: p.1, p.2)

/-- Parses a `[...]` character class following Python `fnmatch.translate`'s
scanning rules: an initial `!` negates, and a `]` in first content position is
literal.  Returns `(negated, class content, rest of pattern)`, or `none` when
no closing `]` exists (in which case the `[` is treated literally). -/
def parseClass (l : List Char) : Option (Bool × List Char × List Char) :=
  match l with
  | '!' :: ']' :: t =>
      (splitAtClose t).map fun p => (true, ']' :: p.1, p.2)
  | '!' :: t =>
      (splitAtClose t).map fun p => (true, p.1, p.2)
  | ']' :: t =>
      (splitAtClose t).map fun p => (false, ']' :: p.1, p.2)
  | t =>
      (splitAtClose t).map fun p => (false, p.1, p.2)

/-- Fuelled worker for `fnmatch`: standard backtracking glob matching of a
pattern (first list) against a string (second list), with `*`, `?` and
`[...]` classes.  Every recursive call strictly decreases the combined length
of pattern and string, so the fuel passed by `fnmatch` is never exhausted. -/
def globMatchGo : Nat → List Char → List Char → Bool
  | 0, _, _ => false
  | fuel + 1, p, s =>
    match p, s with
    | [], s => s.isEmpty
    | '*' :: ps, s =>
        globMatchGo fuel ps s ||
          (match s with
           | [] => false
           | _ :: s' => globMatchGo fuel ('*' :: ps) s')
    | '?' :: ps, s =>
        (match s with
         | [] => false
         | _ :: s' => globMatchGo fuel ps s')
    | '[' :: ps, s =>
        (match parseClass ps with
         | some (neg, content, rest) =>
             (match s with
              | [] => false
              | c :: s' => (matchClassChars content c != neg) && globMatchGo fuel rest s')
         | none =>
             (match s with
              | '[' :: s' => globMatchGo fuel ps s'
              | _ => false))
    | c :: ps, s =>
        (match s with
         | c' :: s' => (c = c') && globMatchGo fuel ps s'
         | _ => false)

/-- Models Python `fnmatch.fnmatch(name, pat)` on POSIX (case-sensitive). -/
def fnmatch (name pat : String) : Bool :=
  globMatchGo (pat.data.length + name.data.length + 1) pat.data name.data

/-! The gitignore-style pattern matcher (`GitIgnoreMatcher`, main.py lines
68-153). -/

/-- One compiled ignore rule, as produced by `GitIgnoreMatcher._parse_pattern`
(main.py lines 79-108). -/
structure Rule where
  pattern : String
  negation : Bool
  dir_only : Bool
  anchored : Bool
  original : String
deriving Repr, DecidableEq

/-- The negation / trailing-slash / leading-slash stripping steps of
`_parse_pattern` (main.py lines 83-96), before the trailing `**` rewrite. -/
def stripMarkers (pattern : String) : String :=
  let p1 := if pyStartsWith pattern "!" then pyDrop pattern 1 else pattern
  let p2 := if pyEndsWith p1 "/" then pyDropRight p1 1 else p1
  if pyStartsWith p2 "/" then pyDrop p2 1 else p2

/-- `GitIgnoreMatcher._parse_pattern` (main.py lines 79-108). -/
def GitIgnoreMatcher.parse_pattern (pattern : String) : Rule :=
  let original := pattern
  let negation := pyStartsWith pattern "!"
  let p1 := if negation then pyDrop pattern 1 else pattern
  let dir_only := pyEndsWith p1 "/"
  let p2 := if dir_only then pyDropRight p1 1 else p1
  let anchored := pyStartsWith p2 "/"
  let p3 := if anchored then pyDrop p2 1 else p2
  let p4 := if pyEndsWith p3 "**" then pyDropRight p3 2 ++ "*" else p3
  { pattern := p4, negation := negation, dir_only := dir_only,
    anchored := anchored, original := original }

/-- `GitIgnoreMatcher.__init__` (main.py lines 71-77): strip each raw
pattern, drop blanks and `#` comments, parse the rest in order. -/
def GitIgnoreMatcher (patterns : List String) : List Rule :=
  (patterns.map pyStrip).filterMap fun p =>
    if p = "" || pyStartsWith p "#" then none
    else some (GitIgnoreMatcher.parse_pattern p)

/-- The skip guards at the top of the per-rule loop in
`GitIgnoreMatcher.match` (main.py lines 118-126): directory-only rules are
skipped for non-directories, and anchored rules are skipped unless the path
starts with the rule's pattern. -/
def ruleSkipped (rule : Rule) (path : String) (is_dir : Bool) : Bool :=
  (rule.dir_only && !is_dir) || (rule.anchored && !pyStartsWith path rule.pattern)

/-- The match determination step of `GitIgnoreMatcher.match` (main.py lines
128-139): empty pattern matches everything; a pattern containing `**` matches
when every non-empty piece of the split on `**` is a substring of the path;
otherwise shell-glob match against the whole path or its basename. -/
def GitIgnoreMatcher.ruleMatch (rule : Rule) (match_path : String) : Bool :=
  if rule.pattern = "" then true
  else if pyIn "**" rule.pattern then
    ((pySplit rule.pattern "**").filter fun part => part ≠ "").all
      fun part => pyIn part match_path
  else
    fnmatch match_path rule.pattern || fnmatch (pyBasename match_path) rule.pattern

/-- The rule loop of `GitIgnoreMatcher.match` (main.py lines 114-148),
with the running `negated` flag: a matching negated rule sets the flag, a
matching non-negated rule returns `True` immediately unless the flag is set,
and the loop falls through to returning the flag. -/
def GitIgnoreMatcher.matchGo (path : String) (is_dir : Bool) :
    List Rule → Bool → Bool
  | [], negated => negated
  | rule :: rest, negated =>
      if ruleSkipped rule path is_dir then
        GitIgnoreMatcher.matchGo path is_dir rest negated
      else if GitIgnoreMatcher.ruleMatch rule path then
        if rule.negation then GitIgnoreMatcher.matchGo path is_dir rest true
        else if !negated then true
        else GitIgnoreMatcher.matchGo path is_dir rest negated
      else GitIgnoreMatcher.matchGo path is_dir rest negated

/-- `GitIgnoreMatcher.match` (main.py lines 110-148): normalise backslashes
to slashes, then run the rule loop with the `negated` flag initially false. -/
def GitIgnoreMatcher.matches (rules : List Rule) (path : String)
    (is_dir : Bool := false) : Bool :=
  GitIgnoreMatcher.matchGo (pyReplace path '\\' '/') is_dir rules false

/-- `is_ignored` (main.py lines 150-153). -/
def is_ignored (path : String) (ignore_patterns : List String)
    (is_dir : Bool := false) : Bool :=
  GitIgnoreMatcher.matches (GitIgnoreMatcher ignore_patterns) path is_dir

/-- Modelled from the spec: the PatternSet verdict computed by folding the
rules in input order with `excluded` initially false, where each matching
non-negated rule sets `excluded := true` and each matching negated rule sets
`excluded := false`, the final value being the verdict (spec section 3,
claim C1).  This is the claimed semantics, to be compared against
`GitIgnoreMatcher.matches` above. -/
def specFoldVerdict (rules : List Rule) (path : String) (is_dir : Bool) : Bool :=
  rules.foldl
    (fun excluded rule =>
      if ruleSkipped rule (pyReplace path '\\' '/') is_dir then excluded
      else if GitIgnoreMatcher.ruleMatch rule (pyReplace path '\\' '/') then
        !rule.negation
      else excluded)
    false

/-! File metadata and the remote-filesystem model.  The SFTP session is the
spec's external collaborator (spec section 1); it is modelled as a record of
remote directories and remote files with stat/mkdir/put operations.  `put`
records the uploaded file's local size and modification time as the new
remote metadata. -/

/-- Size and modification time of a file, as returned by `os.stat` locally
and `sftp.stat` remotely.  Python's float `st_mtime` is modelled as an exact
rational. -/
structure FileInfo where
  size : Nat
  mtime : ℚ
deriving Repr, DecidableEq

/-- The remote filesystem as visible through the SFTP session: created
directories and files with their metadata.  Newer `put`s shadow older
entries (lookup finds the most recent). -/
structure RemoteFS where
  dirs : List String
  files : List (String × FileInfo)
deriving Repr, DecidableEq

/-- Models `sftp.stat(p)` succeeding (used only for existence checks on
directory paths, main.py lines 266 and 287): true when `p` was created as a
directory or has a file entry. -/
def RemoteFS.statExists (r : RemoteFS) (p : String) : Bool :=
  r.dirs.contains p || (r.files.lookup p).isSome

/-- Models `get_remote_file_info` (main.py lines 181-190): the remote file's
size and mtime, or `none` when `sftp.stat` raises `FileNotFoundError`.
A directory occupying a file's destination path is outside the model. -/
def RemoteFS.fileInfo (r : RemoteFS) (p : String) : Option FileInfo :=
  r.files.lookup p

/-- Models `sftp.mkdir(p)`. -/
def RemoteFS.mkdir (r : RemoteFS) (p : String) : RemoteFS :=
  { r with dirs := p :: r.dirs }

/-- Raw store primitive: the remote file at `p` now reports stat data
`info`.  The sync and upload paths store the uploaded content's size
together with a *server-assigned* write-time mtime (see `WalkEnv.put_mtime`):
paramiko's `sftp.put` transfers content only and never issues a
setstat/utime, so the remote `st_mtime` after an upload is the server's
clock at write time, not the local file's mtime. -/
def RemoteFS.put (r : RemoteFS) (p : String) (info : FileInfo) : RemoteFS :=
  { r with files := (p, info) :: r.files }

/-- `should_sync_file` (main.py lines 192-217).  The local `os.stat` result
is passed in as `local_stat`.  When the size and mtime checks both pass and
`check_hash` is set, line 215 calls `get_remote_file_hash`, a function that
is defined nowhere in the program, so Python raises
`NameError: name 'get_remote_file_hash' is not defined`; this fallible
outcome is modelled with `Except`. -/
def should_sync_file (local_stat : FileInfo) (remote_info : Option FileInfo)
    (check_hash : Bool) : Except String Bool :=
  match remote_info with
  | none => .ok true
  | some ri =>
      if local_stat.size ≠ ri.size then .ok true
      else if 1 < |local_stat.mtime - ri.mtime| then .ok true
      else if check_hash then .error "name 'get_remote_file_hash' is not defined"
      else .ok false

/-! The local directory tree walked by `os.walk(local_path, topdown=True)`
(main.py line 272), and the walk itself.  The tree is the local-filesystem
oracle: names of subdirectories and files per directory, with each file's
`os.stat` data. -/

mutual
/-- A local directory: its subdirectories and its files (with stat data),
in the order `os.walk` reports them. -/
inductive LTree where
  | mk (dirs : DirList) (files : List (String × FileInfo))
/-- A list of named subdirectories. -/
inductive DirList where
  | nil
  | cons (name : String) (tree : LTree) (rest : DirList)
end

/-- The subdirectory names of a `DirList`, in order. -/
def DirList.names : DirList → List String
  | .nil => []
  | .cons n _ rest => n :: rest.names

/-- `os.path.relpath(os.path.join(root, name), local_path)` for a walk
position whose own relative path is `rel` (`"."` at the top level): the
child's relative path drops the leading `"."`. -/
def childRel (rel name : String) : String :=
  if rel = "." then name else posixJoin rel name

/-- One step of the sync walk, recorded in source order.  The walk's
per-item work (main.py lines 272-315) factors into a trace of steps —
computed purely from the local tree and the ignore patterns, since pruning
and path construction never consult the remote side — and a state executor
`execAct` below that performs each step against the remote session and the
result accumulator exactly as the loop body does. -/
inductive WalkAct where
  /-- A pruned subdirectory recorded in `ignored_items` (lines 278-280);
  `item` is the join of the walk-relative dir and name, plus `'/'`. -/
  | ignoredDir (item : String)
  /-- A surviving subdirectory stat'd and created if absent (lines 283-290);
  `relDir` is its path relative to the local root. -/
  | ensureDir (relDir : String)
  /-- A file encountered at this level (lines 293-315); `relPath` is its
  path relative to the local root, `info` its local stat data. -/
  | file (relPath : String) (info : FileInfo)
deriving Repr, DecidableEq

mutual
/-- The trace of the `os.walk` loop over a tree whose relative path is
`rel`: record pruned subdirectories (in original order), then ensure the
surviving ones, then process files, then descend into survivors in order.
The ignore check for a subdirectory uses `os.path.join(rel, name)` — which
keeps the leading `"./"` at the top level (main.py line 276) — while
relative paths for remote-directory creation and for files use
`os.path.relpath`, which drops it. -/
def walkTrace (pats : List String) (rel : String) : LTree → List WalkAct
  | .mk dirs files =>
      ((dirs.names.filter fun n => is_ignored (posixJoin rel n) pats true).map
        fun n => WalkAct.ignoredDir (posixJoin rel n ++ "/"))
      ++ ((dirs.names.filter fun n => !is_ignored (posixJoin rel n) pats true).map
        fun n => WalkAct.ensureDir (childRel rel n))
      ++ (files.map fun f => WalkAct.file (childRel rel f.1) f.2)
      ++ walkDirsTrace pats rel dirs

/-- Descent into the subdirectories that survived pruning, in order. -/
def walkDirsTrace (pats : List String) (rel : String) : DirList → List WalkAct
  | .nil => []
  | .cons n t rest =>
      (if is_ignored (posixJoin rel n) pats true then []
       else walkTrace pats (childRel rel n) t)
      ++ walkDirsTrace pats rel rest
end

deriving instance DecidableEq for Except

/-- The accumulating results dictionary of `sync_directory` (main.py lines
251-257).  The source stores an error as the single formatted string
`"Failed to upload {path}: {message}"` (line 315); `errors` holds those
strings. -/
structure SyncResults where
  uploaded_files : List String := []
  skipped_files : List String := []
  created_directories : List String := []
  ignored_items : List String := []
  errors : List String := []
deriving Repr, DecidableEq

/-- The mutable state of one sync run: the remote filesystem as seen through
the session, and the results accumulator. -/
structure SyncState where
  remote : RemoteFS
  res : SyncResults
deriving Repr, DecidableEq

/-- The ambient data of one walk: the effective ignore patterns, the remote
root, the two option flags, and the upload collaborator's behaviour —
`put_result dest = some msg` means `sftp.put` to `dest` raises an exception
with message `msg`, `none` means it succeeds; `put_mtime dest` is the
`st_mtime` the remote file at `dest` reports after this run's successful
upload to it.  paramiko's `sftp.put` writes the file's content but never
sets its times, so that mtime is the server's write-time clock — an oracle
of the external collaborator, not the local file's mtime. -/
structure WalkEnv where
  all_patterns : List String
  remote_path : String
  skip_unchanged : Bool
  check_hash : Bool
  put_result : String → Option String
  put_mtime : String → ℚ

/-- `os.path.join(remote_path, relPath).replace('\\\\', '/')` (main.py lines
285 and 300): the remote destination for a local item with relative path
`relPath`. -/
def WalkEnv.dest (e : WalkEnv) (relPath : String) : String :=
  pyReplace (posixJoin e.remote_path relPath) '\\' '/'

/-- The upload attempt for one file (main.py lines 309-310 under the
per-file `try`): on failure append the formatted error (line 315), on
success the remote file now holds the uploaded content (its size) with the
server-assigned write-time mtime, and the relative path is recorded. -/
def execPut (e : WalkEnv) (st : SyncState) (relPath dest : String)
    (info : FileInfo) : SyncState :=
  match e.put_result dest with
  | some msg =>
      { st with res := { st.res with
          errors := st.res.errors ++ ["Failed to upload " ++ relPath ++ ": " ++ msg] } }
  | none =>
      { remote := st.remote.put dest ⟨info.size, e.put_mtime dest⟩,
        res := { st.res with
          uploaded_files := st.res.uploaded_files ++ [relPath] } }

/-- Executes one walk step against the state, mirroring the corresponding
loop body of `sync_directory`:
ignored-directory recording (lines 278-280); surviving-directory stat/mkdir
(lines 283-290); and the per-file block (lines 293-315) — ignore check,
optional remote stat, the `not skip_unchanged or should_sync_file(...)`
decision with its `try/except` that turns a `should_sync_file` exception or
an upload failure into an `errors` entry. -/
def execAct (e : WalkEnv) (st : SyncState) : WalkAct → SyncState
  | .ignoredDir item =>
      { st with res := { st.res with
          ignored_items := st.res.ignored_items ++ [item] } }
  | .ensureDir relDir =>
      let q := e.dest relDir
      if st.remote.statExists q then st
      else
        { remote := st.remote.mkdir q,
          res := { st.res with
            created_directories := st.res.created_directories ++ [q] } }
  | .file relPath info =>
      if is_ignored relPath e.all_patterns then
        { st with res := { st.res with
            ignored_items := st.res.ignored_items ++ [relPath] } }
      else
        let dest := e.dest relPath
        if !e.skip_unchanged then execPut e st relPath dest info
        else
          match should_sync_file info (st.remote.fileInfo dest) e.check_hash with
          | .error msg =>
              { st with res := { st.res with
                  errors := st.res.errors ++
                    ["Failed to upload " ++ relPath ++ ": " ++ msg] } }
          | .ok true => execPut e st relPath dest info
          | .ok false =>
              { st with res := { st.res with
                  skipped_files := st.res.skipped_files ++ [relPath] } }

/-- Runs a walk trace left to right. -/
def runTrace (e : WalkEnv) (acts : List WalkAct) (st : SyncState) : SyncState :=
  acts.foldl (execAct e) st

/-- The remote-root preparation loop (main.py lines 260-269): walk the
`'/'`-separated parts of the remote path, skip empty parts, accumulate
`current_path += '/' + part`, stat each prefix and create it (recording it)
when absent. -/
def ensureParts (r : RemoteFS) (cur : String) : List String → RemoteFS × List String
  | [] => (r, [])
  | part :: rest =>
      if part = "" then ensureParts r cur rest
      else
        let cur' := cur ++ "/" ++ part
        if r.statExists cur' then ensureParts r cur' rest
        else
          let out := ensureParts (r.mkdir cur') cur' rest
          (out.1, cur' :: out.2)

/-- The prefix paths the preparation loop visits, in order. -/
def prefixPaths (cur : String) : List String → List String
  | [] => []
  | part :: rest =>
      if part = "" then prefixPaths cur rest
      else (cur ++ "/" ++ part) :: prefixPaths (cur ++ "/" ++ part) rest

/-- The process-wide configuration loaded from environment variables
(main.py lines 33-45).  Unset string variables are modelled as `""`, which
has the same truthiness Python's `None` has in every use the source makes. -/
structure ServerConfig where
  TARGET_HOST : String := ""
  TARGET_PORT : Nat := 22
  TARGET_USERNAME : String := ""
  TARGET_PASSWORD : String := ""
  LOCAL_PATH : String := ""
  REMOTE_PATH : String := ""
  IGNORE_PATTERNS : List String := []

/-- The local filesystem as observed from a sync's local root: whether the
root exists, the raw lines of a readable `.gitignore` directly under it (or
`none`), and the directory tree beneath it. -/
structure LocalFS where
  root_exists : Bool
  gitignore : Option (List String)
  tree : LTree

/-- `load_gitignore_patterns` (main.py lines 155-167): keep lines whose
strip is non-empty and that do not start (unstripped) with `'#'`, stripped.
A missing or unreadable file contributes nothing. -/
def load_gitignore_patterns (lfs : LocalFS) : List String :=
  match lfs.gitignore with
  | none => []
  | some lines =>
      (lines.filter fun l => pyStrip l ≠ "" && !pyStartsWith l "#").map pyStrip

/-- Python's `a or b` for an optional string argument falling back to a
configured default (main.py lines 234-235): `None` and `""` both fall
through. -/
def pyOrStr (o : Option String) (d : String) : String :=
  match o with
  | some s => if s = "" then d else s
  | none => d

/-- The outcome of one `sync_directory` call: the returned dictionary
(`.ok` results or an `"error"` payload), the remote filesystem afterwards,
and whether an SSH session was opened at all. -/
structure SyncReturn where
  result : Except String SyncResults
  remote : RemoteFS
  connected : Bool

/-- `sync_directory` (main.py lines 219-323).  Argument defaulting and the
two precondition checks happen before `get_ssh_client()`; `connect_ok`
models that call succeeding (raising, e.g. for missing credentials or an
unreachable host, yields the line-323 error payload).  Then the remote root
is prepared and the walk trace is executed. -/
def sync_directory (cfg : ServerConfig) (connect_ok : Bool)
    (put_result : String → Option String) (put_mtime : String → ℚ)
    (lfs : LocalFS) (remote0 : RemoteFS)
    (local_dir remote_dir : Option String := none)
    (skip_unchanged : Bool := true) (check_hash : Bool := false) : SyncReturn :=
  let local_path := pyOrStr local_dir cfg.LOCAL_PATH
  let remote_path := pyOrStr remote_dir cfg.REMOTE_PATH
  if local_path = "" || remote_path = "" then
    ⟨.error "Local and remote paths must be specified", remote0, false⟩
  else if !lfs.root_exists then
    ⟨.error ("Local path does not exist: " ++ local_path), remote0, false⟩
  else
    let all_patterns := cfg.IGNORE_PATTERNS ++ load_gitignore_patterns lfs
    if !connect_ok then
      ⟨.error "Sync failed: could not open SSH session", remote0, false⟩
    else
      let pre := ensureParts remote0 "" (pySplit remote_path "/")
      let e : WalkEnv :=
        ⟨all_patterns, remote_path, skip_unchanged, check_hash, put_result,
          put_mtime⟩
      let st0 : SyncState := ⟨pre.1, { created_directories := pre.2 }⟩
      let st1 := runTrace e (walkTrace all_patterns "." lfs.tree) st0
      ⟨.ok st1.res, st1.remote, true⟩

/-- The relative paths of the file steps of a trace, in walk order. -/
def actFiles (acts : List WalkAct) : List String :=
  acts.filterMap fun a =>
    match a with
    | .file r _ => some r
    | _ => none

/-- The relative paths of the non-ignored file steps of a trace, in walk
order: exactly the files a fully-skipping run lists in `skipped_files`. -/
def traceSkippable (pats : List String) (acts : List WalkAct) : List String :=
  acts.filterMap fun a =>
    match a with
    | .file r _ => if is_ignored r pats then none else some r
    | _ => none

/-- The `ignored_items` entries a run contributes: pruned directories and
ignored files, in walk order. -/
def traceIgnored (pats : List String) (acts : List WalkAct) : List String :=
  acts.filterMap fun a =>
    match a with
    | .ignoredDir item => some item
    | .file r _ => if is_ignored r pats then some r else none
    | _ => none

/-! The single-file upload (`upload_file`, main.py lines 326-391) and the
configuration resource (`get_sftp_config`, main.py lines 518-532). -/

/-- Length of the common prefix of two segment lists, as
`os.path.commonprefix` computes it for `posixpath.relpath`. -/
def commonLen : List String → List String → Nat
  | a :: as, b :: bs => if a = b then 1 + commonLen as bs else 0
  | _, _ => 0

/-- `'/'.join(parts)`. -/
def joinSlash : List String → String
  | [] => ""
  | [x] => x
  | x :: rest => x ++ "/" ++ joinSlash rest

/-- Models `posixpath.relpath(path, start)` for absolute, already-normalised
inputs (the `abspath` step, which consults the process working directory for
relative inputs and collapses `.`/`..` segments, is not modelled): split
both on `'/'`, drop empty segments, and prefix `..` segments for the part of
`start` beyond the common prefix. -/
def relpath (path start : String) : String :=
  let ps := (pySplit path "/").filter fun x => x ≠ ""
  let ss := (pySplit start "/").filter fun x => x ≠ ""
  let i := commonLen ss ps
  let rel := List.replicate (ss.length - i) ".." ++ ps.drop i
  if rel = [] then "." else joinSlash rel

/-- Models `posixpath.dirname(p)`: the part before the final `'/'`, with
trailing slashes stripped unless the result is all slashes. -/
def pyDirname (p : String) : String :=
  let head := (p.data.reverse.dropWhile fun c => c ≠ '/').reverse
  if head.isEmpty then ""
  else if head.all fun c => c = '/' then ⟨head⟩
  else ⟨(head.reverse.dropWhile fun c => c = '/').reverse⟩

/-- The success payload of `upload_file` (main.py lines 382-388). -/
structure UploadOk where
  local_file : String
  remote_file : String
  file_size : Nat
  uploaded_size : Nat
deriving Repr, DecidableEq

/-- The outcome of one `upload_file` call: the returned dictionary, the
remote filesystem afterwards, and whether an SSH session was opened. -/
structure UploadReturn where
  result : Except String UploadOk
  remote : RemoteFS
  connected : Bool

/-- `upload_file` (main.py lines 326-391).  `local_exists`, `local_isfile`
and `local_info` are the local-filesystem oracle for `local_file_path`;
`put_mtime` is the server-assigned write-time mtime oracle, as in
`WalkEnv.put_mtime`.  The existence and regular-file checks and the
default-destination resolution all run before `get_ssh_client()`;
afterwards the destination's parent directories are ensured (without
recording) and the file is put. -/
def upload_file (cfg : ServerConfig) (connect_ok : Bool)
    (put_result : String → Option String) (put_mtime : String → ℚ)
    (local_exists local_isfile : Bool) (local_info : FileInfo)
    (remote0 : RemoteFS) (local_file_path : String)
    (remote_file_path : Option String := none) : UploadReturn :=
  if !local_exists then
    ⟨.error ("Local file does not exist: " ++ local_file_path), remote0, false⟩
  else if !local_isfile then
    ⟨.error ("Path is not a file: " ++ local_file_path), remote0, false⟩
  else
    let rfp? : Except String String :=
      match remote_file_path with
      | some r => .ok r
      | none =>
          if cfg.LOCAL_PATH ≠ "" && cfg.REMOTE_PATH ≠ "" then
            if pyStartsWith local_file_path cfg.LOCAL_PATH then
              .ok (pyReplace
                (posixJoin cfg.REMOTE_PATH (relpath local_file_path cfg.LOCAL_PATH))
                '\\' '/')
            else .error "Cannot determine remote path. Please specify remote_file_path."
          else .error "Remote path not specified and no default paths configured."
    match rfp? with
    | .error msg => ⟨.error msg, remote0, false⟩
    | .ok rfp =>
        if !connect_ok then
          ⟨.error "Upload failed: could not open SSH session", remote0, false⟩
        else
          let rdir := pyDirname rfp
          let r1 :=
            if rdir ≠ "" then (ensureParts remote0 "" (pySplit rdir "/")).1
            else remote0
          match put_result rfp with
          | some msg => ⟨.error ("Upload failed: " ++ msg), r1, true⟩
          | none =>
              let r2 := r1.put rfp ⟨local_info.size, put_mtime rfp⟩
              ⟨.ok
                { local_file := local_file_path, remote_file := rfp,
                  file_size := local_info.size,
                  uploaded_size := (((r2.fileInfo rfp).map FileInfo.size).getD 0) },
                r2, true⟩

/-- A JSON string literal (escaping beyond the quotes is not modelled; no
configuration value in the claims requires it). -/
def jsonStr (s : String) : String :=
  "\"" ++ s ++ "\""

/-- A JSON list of string literals, comma-separated. -/
def jsonStrList : List String → String
  | [] => ""
  | [x] => jsonStr x
  | x :: rest => jsonStr x ++ ", " ++ jsonStrList rest

/-- `get_sftp_config` (main.py lines 518-532): a JSON rendering of the
configuration with the fields in source order — host, port, username,
local/remote paths, ignore patterns, and a connection status that is
`"configured"` exactly when host, username and password are all non-empty.
`TARGET_PASSWORD` is never rendered.  (The exact whitespace of
`json.dumps(..., indent=2)` is simplified; field names, values and order
are preserved.) -/
def get_sftp_config (cfg : ServerConfig) : String :=
  "\x7b\n  \"host\": " ++ jsonStr cfg.TARGET_HOST ++
  ",\n  \"port\": " ++ toString cfg.TARGET_PORT ++
  ",\n  \"username\": " ++ jsonStr cfg.TARGET_USERNAME ++
  ",\n  \"local_path\": " ++ jsonStr cfg.LOCAL_PATH ++
  ",\n  \"remote_path\": " ++ jsonStr cfg.REMOTE_PATH ++
  ",\n  \"ignore_patterns\": [" ++ jsonStrList cfg.IGNORE_PATTERNS ++
  "],\n  \"connection_status\": " ++
  jsonStr (if cfg.TARGET_HOST ≠ "" && cfg.TARGET_USERNAME ≠ "" &&
              cfg.TARGET_PASSWORD ≠ "" then "configured" else "incomplete") ++
  "\n\x7d"

/-- The remote entry at `p` is current for local data `i`: present, equal in
size, and with mtime within the one-second tolerance — exactly the
condition under which `should_sync_file` answers `false` with
`check_hash` off. -/
def goodEntry (r : RemoteFS) (p : String) (i : FileInfo) : Prop :=
  ∃ ri, r.fileInfo p = some ri ∧ ri.size = i.size ∧ |i.mtime - ri.mtime| ≤ 1

/-! ## Theorems -/

/-- The rule loop returns true exactly when the flag is already set or some
rule survives its guards and matches: the `negated` flag machinery never
changes the final verdict, it only suppresses the early return. -/
theorem GitIgnoreMatcher.matchGo_eq_any (path : String) (is_dir : Bool)
    (rules : List Rule) (negated : Bool) :
    GitIgnoreMatcher.matchGo path is_dir rules negated =
      (negated || rules.any fun r =>
        !ruleSkipped r path is_dir && GitIgnoreMatcher.ruleMatch r path) := by
  induction rules generalizing negated with
  | nil => simp [GitIgnoreMatcher.matchGo]
  | cons r rest ih =>
      simp only [GitIgnoreMatcher.matchGo, List.any_cons]
      by_cases hs : ruleSkipped r path is_dir
      · simp [hs, ih]
      · by_cases hm : GitIgnoreMatcher.ruleMatch r path
        · by_cases hn : r.negation
          · simp [hs, hm, hn, ih]
          · cases negated <;> simp [hs, hm, hn, ih]
        · simp [hs, hm, ih]

/-- C1 (amended): `matches` is not the claimed fold.  A matching negated
rule sets a flag; a matching non-negated rule with the flag unset returns
ignored=true immediately; otherwise the loop's final verdict is the flag —
equivalently, the path is ignored iff any applicable rule (negated or not)
matches it.  In particular `["*.log", "!keep.log"]` yields ignored=true on
`"keep.log"` as well as on `"debug.log"`: the `"*.log"` rule returns before
the negation is consulted. -/
theorem c1_matches_eq_any_applicable :
    (∀ (patterns : List String) (path : String) (is_dir : Bool),
      GitIgnoreMatcher.matches (GitIgnoreMatcher patterns) path is_dir =
        (GitIgnoreMatcher patterns).any fun r =>
          !ruleSkipped r (pyReplace path '\\' '/') is_dir &&
            GitIgnoreMatcher.ruleMatch r (pyReplace path '\\' '/')) ∧
    GitIgnoreMatcher.matches (GitIgnoreMatcher ["*.log", "!keep.log"])
      "keep.log" false = true ∧
    GitIgnoreMatcher.matches (GitIgnoreMatcher ["*.log", "!keep.log"])
      "debug.log" false = true := by
  refine ⟨fun patterns path is_dir => ?_, by decide, by decide⟩
  simp [GitIgnoreMatcher.matches, GitIgnoreMatcher.matchGo_eq_any]

/-- C1 (counterexample): on the pattern set `["*.log", "!keep.log"]` and the
path `"keep.log"` (not a directory), the spec's fold semantics yields
ignored=false but the code's `match` yields ignored=true — the claimed fold
and the claimed example value are both wrong about the code. -/
theorem c1_counterexample :
    specFoldVerdict (GitIgnoreMatcher ["*.log", "!keep.log"]) "keep.log" false
        = false ∧
    GitIgnoreMatcher.matches (GitIgnoreMatcher ["*.log", "!keep.log"])
        "keep.log" false = true := by
  constructor <;> decide

/-- C9: whenever some negated rule survives its guards and matches the
(path, isDirectory) pair, and no earlier non-negated rule matches, `match`
returns true — the path is ignored; in particular `["!keep.log"]` alone
ignores `"keep.log"`. -/
theorem c9_negated_match_ignores (patterns : List String) (path : String)
    (is_dir : Bool)
    (h : ∃ i, ∃ hi : i < (GitIgnoreMatcher patterns).length,
      ((GitIgnoreMatcher patterns).get ⟨i, hi⟩).negation = true ∧
      ruleSkipped ((GitIgnoreMatcher patterns).get ⟨i, hi⟩)
        (pyReplace path '\\' '/') is_dir = false ∧
      GitIgnoreMatcher.ruleMatch ((GitIgnoreMatcher patterns).get ⟨i, hi⟩)
        (pyReplace path '\\' '/') = true ∧
      ∀ j, ∀ hj : j < (GitIgnoreMatcher patterns).length, j < i →
        ((GitIgnoreMatcher patterns).get ⟨j, hj⟩).negation = false →
        ¬ (ruleSkipped ((GitIgnoreMatcher patterns).get ⟨j, hj⟩)
              (pyReplace path '\\' '/') is_dir = false ∧
           GitIgnoreMatcher.ruleMatch ((GitIgnoreMatcher patterns).get ⟨j, hj⟩)
              (pyReplace path '\\' '/') = true)) :
    GitIgnoreMatcher.matches (GitIgnoreMatcher patterns) path is_dir = true := by
  obtain ⟨i, hi, hneg, hskip, hmatch, -⟩ := h
  rw [GitIgnoreMatcher.matches, GitIgnoreMatcher.matchGo_eq_any]
  simp only [Bool.false_or, List.any_eq_true]
  exact ⟨_, (GitIgnoreMatcher patterns).get_mem i hi,
    by rw [hskip, hmatch]; rfl⟩

/-- C9 witness: the singleton set `["!keep.log"]` on `"keep.log"` satisfies
the hypothesis with its only (negated) rule, and the path is ignored. -/
theorem c9_witness :
    GitIgnoreMatcher.matches (GitIgnoreMatcher ["!keep.log"]) "keep.log" false
      = true := by
  apply c9_negated_match_ignores ["!keep.log"] "keep.log" false
  refine ⟨0, by decide, by decide, by decide, by decide, ?_⟩
  exact fun j hj hji _ => absurd hji (Nat.not_lt_zero j)

/-- `charsStartWith` decides the prefix relation. -/
theorem charsStartWith_iff : ∀ (s p : List Char),
    charsStartWith s p = true ↔ p <+: s
  | _, [] => by simp [charsStartWith]
  | [], _ :: _ => by simp [charsStartWith]
  | c :: s, d :: ps => by
      simp only [charsStartWith, Bool.and_eq_true, decide_eq_true_eq,
        charsStartWith_iff s ps, List.cons_prefix_cons]
      constructor
      · rintro ⟨h1, h2⟩
        exact ⟨h1.symm, h2⟩
      · rintro ⟨h1, h2⟩
        exact ⟨h1.symm, h2⟩

/-- `charsContains` decides the infix (contiguous-substring) relation. -/
theorem charsContains_iff : ∀ (sub s : List Char),
    charsContains sub s = true ↔ sub <:+: s
  | sub, [] => by
      rw [charsContains, charsStartWith_iff]
      simp [List.prefix_nil, List.infix_nil]
  | sub, c :: t => by
      rw [charsContains, Bool.or_eq_true, charsStartWith_iff,
        charsContains_iff sub t, List.infix_cons_iff]

/-- C7: a pattern that, after stripping the negation prefix, trailing-slash
marker and leading-slash anchor, ends in `**` is compiled with the trailing
`**` replaced by `*`; and a compiled rule whose pattern still contains `**`
passes the match-determination step on a path exactly when every non-empty
piece of the pattern split on `**` occurs as a contiguous substring of the
path. -/
theorem c7_double_star (raw : String) (r : Rule) (path : String)
    (h1 : pyEndsWith (stripMarkers raw) "**" = true)
    (h2 : pyIn "**" r.pattern = true) :
    (GitIgnoreMatcher.parse_pattern raw).pattern =
      pyDropRight (stripMarkers raw) 2 ++ "*" ∧
    (GitIgnoreMatcher.ruleMatch r path = true ↔
      ∀ part ∈ pySplit r.pattern "**", part ≠ "" → part.data <:+: path.data) := by
  constructor
  · rw [stripMarkers] at h1 ⊢
    rw [GitIgnoreMatcher.parse_pattern]
    simp only [h1, if_true]
  · have hne : r.pattern ≠ "" := by
      intro he
      rw [he] at h2
      exact absurd h2 (by decide)
    rw [GitIgnoreMatcher.ruleMatch, if_neg hne, h2, if_pos rfl]
    rw [List.all_eq_true]
    constructor
    · intro hall part hmem hpne
      exact (charsContains_iff part.data path.data).1
        (hall part (List.mem_filter.2 ⟨hmem, by simpa using hpne⟩))
    · intro hall part hmem
      obtain ⟨hm, hpne⟩ := List.mem_filter.1 hmem
      exact (charsContains_iff part.data path.data).2
        (hall part hm (by simpa using hpne))

/-- C7 witness: `"a/**"` strips to itself, ends in `**`, and compiles to
`"a/*"`; the rule compiled from `"a**b"` keeps its `**` and matches
`"xa.yb"` since both `"a"` and `"b"` occur in it. -/
theorem c7_witness :
    pyEndsWith (stripMarkers "a/**") "**" = true ∧
    pyIn "**" (GitIgnoreMatcher.parse_pattern "a**b").pattern = true ∧
    (GitIgnoreMatcher.parse_pattern "a/**").pattern =
      pyDropRight (stripMarkers "a/**") 2 ++ "*" ∧
    (GitIgnoreMatcher.ruleMatch (GitIgnoreMatcher.parse_pattern "a**b") "xa.yb"
        = true ↔
      ∀ part ∈ pySplit (GitIgnoreMatcher.parse_pattern "a**b").pattern "**",
        part ≠ "" → part.data <:+: "xa.yb".data) :=
  ⟨by decide, by decide,
    (c7_double_star "a/**" (GitIgnoreMatcher.parse_pattern "a**b") "xa.yb"
      (by decide) (by decide)).1,
    (c7_double_star "a/**" (GitIgnoreMatcher.parse_pattern "a**b") "xa.yb"
      (by decide) (by decide)).2⟩

/-- C2: with `skipUnchanged` on, `checkHash` off and a succeeding upload
collaborator, the per-file walk step uploads a non-ignored file exactly when
the remote file is absent, the sizes differ, or the modification times
differ by more than one second — and records it as skipped exactly when the
remote file is present with equal size and mtime within tolerance. -/
theorem c2_staleness_upload_iff (e : WalkEnv) (st : SyncState)
    (relPath : String) (info : FileInfo)
    (hni : is_ignored relPath e.all_patterns = false)
    (hsu : e.skip_unchanged = true) (hch : e.check_hash = false)
    (hput : e.put_result (e.dest relPath) = none) :
    ((execAct e st (.file relPath info)).res.uploaded_files
        = st.res.uploaded_files ++ [relPath] ↔
      (st.remote.fileInfo (e.dest relPath) = none ∨
        ∃ ri, st.remote.fileInfo (e.dest relPath) = some ri ∧
          (info.size ≠ ri.size ∨ 1 < |info.mtime - ri.mtime|))) ∧
    ((execAct e st (.file relPath info)).res.skipped_files
        = st.res.skipped_files ++ [relPath] ↔
      ∃ ri, st.remote.fileInfo (e.dest relPath) = some ri ∧
        info.size = ri.size ∧ |info.mtime - ri.mtime| ≤ 1) := by
  cases hfi : st.remote.fileInfo (e.dest relPath) with
  | none =>
      simp [execAct, execPut, hni, hsu, hch, hput, should_sync_file, hfi]
  | some ri =>
      by_cases hsz : info.size = ri.size
      · by_cases hmt : 1 < |info.mtime - ri.mtime|
        · simp [execAct, execPut, hni, hsu, hch, hput, should_sync_file, hfi,
            hsz, hmt]
        · simp [execAct, execPut, hni, hsu, hch, hput, should_sync_file, hfi,
            hsz, hmt, not_lt.1 hmt]
      · simp [execAct, execPut, hni, hsu, hch, hput, should_sync_file, hfi,
          hsz]

/-- C2 witness: a file of size 10 whose remote copy has equal size but an
mtime two seconds older is re-uploaded; the hypothesis side conditions hold
at this concrete input. -/
theorem c2_witness :
    is_ignored "a.txt" ([] : List String) = false ∧
    ((execAct ⟨[], "/r", true, false, fun _ => none, fun _ => 0⟩
        ⟨⟨[], [("/r/a.txt", ⟨10, 100⟩)]⟩, {}⟩
        (.file "a.txt" ⟨10, 102⟩)).res.uploaded_files
      = SyncResults.uploaded_files {} ++ ["a.txt"] ↔
      ((RemoteFS.mk [] [("/r/a.txt", ⟨10, 100⟩)]).fileInfo
          (WalkEnv.dest ⟨[], "/r", true, false, fun _ => none, fun _ => 0⟩
            "a.txt") = none ∨
        ∃ ri, (RemoteFS.mk [] [("/r/a.txt", ⟨10, 100⟩)]).fileInfo
            (WalkEnv.dest ⟨[], "/r", true, false, fun _ => none, fun _ => 0⟩
              "a.txt")
            = some ri ∧
          ((10 : Nat) ≠ ri.size ∨ 1 < |(102 : ℚ) - ri.mtime|))) :=
  ⟨by decide,
    (c2_staleness_upload_iff ⟨[], "/r", true, false, fun _ => none, fun _ => 0⟩
      ⟨⟨[], [("/r/a.txt", ⟨10, 100⟩)]⟩, {}⟩ "a.txt" ⟨10, 102⟩
      (by decide) rfl rfl rfl).1⟩

/-- C3: the claim is right about the intended digest comparison but the code
cannot perform it — when `checkHash` is set, the remote file exists, and
size and mtime (within tolerance) agree, `should_sync_file` reaches line 215,
which calls the nowhere-defined `get_remote_file_hash` and so raises
`NameError` instead of deciding; the per-file handler then records the file
as an upload error. -/
theorem c3_hash_check_raises :
    should_sync_file ⟨10, 100⟩ (some ⟨10, 100⟩) true =
      .error "name 'get_remote_file_hash' is not defined" := by
  norm_num [should_sync_file]

/-- C6: whenever the effective local root is empty, the effective remote
root is empty, or the local root does not exist, `sync_directory` returns an
error payload at once: no SSH session is opened and the remote side is
untouched. -/
theorem c6_preconditions (cfg : ServerConfig) (connect_ok : Bool)
    (put_result : String → Option String) (put_mtime : String → ℚ)
    (lfs : LocalFS) (remote0 : RemoteFS)
    (local_dir remote_dir : Option String) (skip_unchanged check_hash : Bool)
    (h : pyOrStr local_dir cfg.LOCAL_PATH = "" ∨
         pyOrStr remote_dir cfg.REMOTE_PATH = "" ∨ lfs.root_exists = false) :
    (∃ msg, (sync_directory cfg connect_ok put_result put_mtime lfs remote0
        local_dir remote_dir skip_unchanged check_hash).result = .error msg) ∧
    (sync_directory cfg connect_ok put_result put_mtime lfs remote0 local_dir
        remote_dir skip_unchanged check_hash).connected = false ∧
    (sync_directory cfg connect_ok put_result put_mtime lfs remote0 local_dir
        remote_dir skip_unchanged check_hash).remote = remote0 := by
  by_cases h1 : pyOrStr local_dir cfg.LOCAL_PATH = ""
  · simp [sync_directory, h1]
  · by_cases h2 : pyOrStr remote_dir cfg.REMOTE_PATH = ""
    · simp [sync_directory, h1, h2]
    · have h3 : lfs.root_exists = false := by tauto
      simp [sync_directory, h1, h2, h3]

/-- C6 witness: with an empty configured local path and no argument, the
sync refuses immediately, opens no session, and leaves the remote state
unchanged. -/
theorem c6_witness :
    pyOrStr none (ServerConfig.LOCAL_PATH { REMOTE_PATH := "/r" }) = "" ∧
    (∃ msg, (sync_directory { REMOTE_PATH := "/r" } true (fun _ => none)
        (fun _ => 0) ⟨true, none, .mk .nil []⟩ ⟨[], []⟩ none none true
        false).result = .error msg) ∧
    (sync_directory { REMOTE_PATH := "/r" } true (fun _ => none) (fun _ => 0)
        ⟨true, none, .mk .nil []⟩ ⟨[], []⟩ none none true false).connected
        = false ∧
    (sync_directory { REMOTE_PATH := "/r" } true (fun _ => none) (fun _ => 0)
        ⟨true, none, .mk .nil []⟩ ⟨[], []⟩ none none true false).remote
        = ⟨[], []⟩ :=
  ⟨rfl, c6_preconditions { REMOTE_PATH := "/r" } true (fun _ => none)
    (fun _ => 0) ⟨true, none, .mk .nil []⟩ ⟨[], []⟩ none none true false
    (.inl rfl)⟩

/-- One step towards a substring occurrence: an infix of the right part is
an infix of the whole. -/
theorem infix_append_left {x m : List Char} (l : List Char)
    (h : x <:+: m) : x <:+: l ++ m :=
  h.trans ((List.suffix_append l m).isInfix)

/-- C8: the configuration resource renders host, port, username, both
default paths, the ignore patterns and a connection status, and is
independent of the secret: two configurations that agree on everything but
the (non-empty) password produce identical output, and each rendered field
occurs in that output. -/
theorem c8_config_redacted (c1 c2 : ServerConfig)
    (hh : c1.TARGET_HOST = c2.TARGET_HOST)
    (hp : c1.TARGET_PORT = c2.TARGET_PORT)
    (hu : c1.TARGET_USERNAME = c2.TARGET_USERNAME)
    (hl : c1.LOCAL_PATH = c2.LOCAL_PATH)
    (hr : c1.REMOTE_PATH = c2.REMOTE_PATH)
    (hi : c1.IGNORE_PATTERNS = c2.IGNORE_PATTERNS)
    (hpw1 : c1.TARGET_PASSWORD ≠ "") (hpw2 : c2.TARGET_PASSWORD ≠ "") :
    get_sftp_config c1 = get_sftp_config c2 ∧
    c1.TARGET_HOST.data <:+: (get_sftp_config c1).data ∧
    (toString c1.TARGET_PORT).data <:+: (get_sftp_config c1).data ∧
    c1.TARGET_USERNAME.data <:+: (get_sftp_config c1).data ∧
    c1.LOCAL_PATH.data <:+: (get_sftp_config c1).data ∧
    c1.REMOTE_PATH.data <:+: (get_sftp_config c1).data ∧
    "connection_status".data <:+: (get_sftp_config c1).data := by
  have hcs : "connection_status".data <:+:
      "],\n  \"connection_status\": ".data := by decide
  refine ⟨?_, ?_, ?_, ?_, ?_, ?_, ?_⟩
  · simp [get_sftp_config, hh, hp, hu, hl, hr, hi, hpw1, hpw2]
  all_goals
    simp only [get_sftp_config, jsonStr, String.data_append, List.append_assoc]
  all_goals
    repeat
      first
        | exact (List.prefix_append _ _).isInfix
        | exact hcs.trans ((List.prefix_append _ _).isInfix)
        | apply infix_append_left

/-- C8 witness: two concrete configurations differing only in their
(non-empty) secrets yield identical resource output. -/
theorem c8_witness :
    ("pw1" : String) ≠ "" ∧ ("pw2" : String) ≠ "" ∧
    get_sftp_config
        { TARGET_HOST := "h", TARGET_PORT := 22, TARGET_USERNAME := "u",
          TARGET_PASSWORD := "pw1", LOCAL_PATH := "/l", REMOTE_PATH := "/r",
          IGNORE_PATTERNS := ["*.log"] } =
      get_sftp_config
        { TARGET_HOST := "h", TARGET_PORT := 22, TARGET_USERNAME := "u",
          TARGET_PASSWORD := "pw2", LOCAL_PATH := "/l", REMOTE_PATH := "/r",
          IGNORE_PATTERNS := ["*.log"] } :=
  ⟨by decide, by decide,
    (c8_config_redacted
      { TARGET_HOST := "h", TARGET_PORT := 22, TARGET_USERNAME := "u",
        TARGET_PASSWORD := "pw1", LOCAL_PATH := "/l", REMOTE_PATH := "/r",
        IGNORE_PATTERNS := ["*.log"] }
      { TARGET_HOST := "h", TARGET_PORT := 22, TARGET_USERNAME := "u",
        TARGET_PASSWORD := "pw2", LOCAL_PATH := "/l", REMOTE_PATH := "/r",
        IGNORE_PATTERNS := ["*.log"] }
      rfl rfl rfl rfl rfl rfl (by decide) (by decide)).1⟩

/-- C10: with the destination omitted, `upload_file` errors without opening
a session when no default roots are configured, or when the local file path
does not start with the configured local root; otherwise, for an existing
regular file (and a working session and put), it uploads to the default
remote root joined with the file's path relative to the local root,
separators normalised to `/`. -/
theorem c10_upload_default_path (cfg : ServerConfig) (connect_ok : Bool)
    (put_result : String → Option String) (put_mtime : String → ℚ)
    (ex isf : Bool) (info : FileInfo)
    (remote0 : RemoteFS) (p : String) :
    ((cfg.LOCAL_PATH = "" ∨ cfg.REMOTE_PATH = "") →
      (∃ msg, (upload_file cfg connect_ok put_result put_mtime ex isf info remote0 p
          none).result = .error msg) ∧
      (upload_file cfg connect_ok put_result put_mtime ex isf info remote0 p
          none).connected = false ∧
      (upload_file cfg connect_ok put_result put_mtime ex isf info remote0 p
          none).remote = remote0) ∧
    (cfg.LOCAL_PATH ≠ "" → cfg.REMOTE_PATH ≠ "" →
      pyStartsWith p cfg.LOCAL_PATH = false →
      (∃ msg, (upload_file cfg connect_ok put_result put_mtime ex isf info remote0 p
          none).result = .error msg) ∧
      (upload_file cfg connect_ok put_result put_mtime ex isf info remote0 p
          none).connected = false ∧
      (upload_file cfg connect_ok put_result put_mtime ex isf info remote0 p
          none).remote = remote0) ∧
    (ex = true → isf = true → cfg.LOCAL_PATH ≠ "" → cfg.REMOTE_PATH ≠ "" →
      pyStartsWith p cfg.LOCAL_PATH = true → connect_ok = true →
      put_result (pyReplace
        (posixJoin cfg.REMOTE_PATH (relpath p cfg.LOCAL_PATH)) '\\' '/')
        = none →
      ∃ ok, (upload_file cfg connect_ok put_result put_mtime ex isf info remote0 p
          none).result = .ok ok ∧
        ok.remote_file = pyReplace
          (posixJoin cfg.REMOTE_PATH (relpath p cfg.LOCAL_PATH)) '\\' '/') := by
  refine ⟨?_, ?_, ?_⟩
  · intro h
    cases ex with
    | false => simp [upload_file]
    | true =>
        cases isf with
        | false => simp [upload_file]
        | true => rcases h with h | h <;> simp [upload_file, h]
  · intro h1 h2 h3
    cases ex with
    | false => simp [upload_file]
    | true =>
        cases isf with
        | false => simp [upload_file]
        | true => simp [upload_file, h1, h2, h3]
  · intro hex hisf h1 h2 h3 hconn hput
    subst hex hisf hconn
    simp [upload_file, h1, h2, h3, hput]

/-- C10 witness: with defaults `/l → /r` and local file `/l/sub/f.txt`, the
upload resolves the destination to `/r/sub/f.txt`. -/
theorem c10_witness :
    pyStartsWith "/l/sub/f.txt" (ServerConfig.LOCAL_PATH
        { LOCAL_PATH := "/l", REMOTE_PATH := "/r" }) = true ∧
    ∃ ok, (upload_file { LOCAL_PATH := "/l", REMOTE_PATH := "/r" } true
        (fun _ => none) (fun _ => 0) true true ⟨7, 1⟩ ⟨[], []⟩ "/l/sub/f.txt"
        none).result = .ok ok ∧
      ok.remote_file = pyReplace
        (posixJoin "/r" (relpath "/l/sub/f.txt" "/l")) '\\' '/' :=
  ⟨by decide,
    (c10_upload_default_path { LOCAL_PATH := "/l", REMOTE_PATH := "/r" } true
      (fun _ => none) (fun _ => 0) true true ⟨7, 1⟩ ⟨[], []⟩ "/l/sub/f.txt").2.2
      rfl rfl (by decide) (by decide) (by decide) rfl rfl⟩

/-- An empty pattern list ignores nothing. -/
theorem is_ignored_nil (p : String) (d : Bool) : is_ignored p [] d = false := rfl

/-- When both preconditions hold and the session opens, `sync_directory`
prepares the remote root and executes the walk trace. -/
theorem sync_directory_ok (cfg : ServerConfig)
    (put_result : String → Option String) (put_mtime : String → ℚ)
    (lfs : LocalFS) (remote0 : RemoteFS)
    (local_dir remote_dir : Option String) (skip_unchanged check_hash : Bool)
    (hl : pyOrStr local_dir cfg.LOCAL_PATH ≠ "")
    (hr : pyOrStr remote_dir cfg.REMOTE_PATH ≠ "")
    (hex : lfs.root_exists = true) :
    sync_directory cfg true put_result put_mtime lfs remote0 local_dir
        remote_dir skip_unchanged check_hash =
      ⟨.ok (runTrace
          ⟨cfg.IGNORE_PATTERNS ++ load_gitignore_patterns lfs,
            pyOrStr remote_dir cfg.REMOTE_PATH, skip_unchanged, check_hash,
            put_result, put_mtime⟩
          (walkTrace (cfg.IGNORE_PATTERNS ++ load_gitignore_patterns lfs) "."
            lfs.tree)
          ⟨(ensureParts remote0 ""
              (pySplit (pyOrStr remote_dir cfg.REMOTE_PATH) "/")).1,
            { created_directories := (ensureParts remote0 ""
                (pySplit (pyOrStr remote_dir cfg.REMOTE_PATH) "/")).2 }⟩).res,
        (runTrace
          ⟨cfg.IGNORE_PATTERNS ++ load_gitignore_patterns lfs,
            pyOrStr remote_dir cfg.REMOTE_PATH, skip_unchanged, check_hash,
            put_result, put_mtime⟩
          (walkTrace (cfg.IGNORE_PATTERNS ++ load_gitignore_patterns lfs) "."
            lfs.tree)
          ⟨(ensureParts remote0 ""
              (pySplit (pyOrStr remote_dir cfg.REMOTE_PATH) "/")).1,
            { created_directories := (ensureParts remote0 ""
                (pySplit (pyOrStr remote_dir cfg.REMOTE_PATH) "/")).2 }⟩).remote,
        true⟩ := by
  simp [sync_directory, hl, hr, hex]

/-- With `skip_unchanged` off and no file ignored, a trace run uploads
exactly the files whose put succeeds, records one formatted error per
failing file (in walk order), and skips nothing. -/
theorem runTrace_noskip (e : WalkEnv) (acts : List WalkAct) (st : SyncState)
    (hsu : e.skip_unchanged = false)
    (hni : ∀ r i, WalkAct.file r i ∈ acts → is_ignored r e.all_patterns = false) :
    (runTrace e acts st).res.uploaded_files =
      st.res.uploaded_files ++
        ((actFiles acts).filter fun r => (e.put_result (e.dest r)).isNone) ∧
    (runTrace e acts st).res.errors =
      st.res.errors ++
        (((actFiles acts).filter fun r => (e.put_result (e.dest r)).isSome).map
          fun r => "Failed to upload " ++ r ++ ": " ++
            ((e.put_result (e.dest r)).getD "")) ∧
    (runTrace e acts st).res.skipped_files = st.res.skipped_files := by
  induction acts generalizing st with
  | nil => simp [runTrace, actFiles]
  | cons a rest ih =>
      have hni' : ∀ r i, WalkAct.file r i ∈ rest →
          is_ignored r e.all_patterns = false :=
        fun r i hm => hni r i (List.mem_cons_of_mem _ hm)
      have hrun : runTrace e (a :: rest) st = runTrace e rest (execAct e st a) :=
        rfl
      cases a with
      | ignoredDir item =>
          rw [hrun]
          obtain ⟨h1, h2, h3⟩ := ih (execAct e st (.ignoredDir item)) hni'
          rw [h1, h2, h3]
          simp [execAct, actFiles]
      | ensureDir relDir =>
          rw [hrun]
          obtain ⟨h1, h2, h3⟩ := ih (execAct e st (.ensureDir relDir)) hni'
          rw [h1, h2, h3]
          by_cases hexi : (st.remote.statExists
              (e.dest relDir) : Bool) = true
          · simp [execAct, hexi, actFiles]
          · simp [execAct, hexi, actFiles]
      | file r i =>
          have hig := hni r i (List.mem_cons_self _ _)
          rw [hrun]
          obtain ⟨h1, h2, h3⟩ := ih (execAct e st (.file r i)) hni'
          rw [h1, h2, h3]
          cases hp : e.put_result (e.dest r) with
          | some m =>
              simp [execAct, execPut, hig, hsu, hp, actFiles,
                List.filter_cons, List.append_assoc]
          | none =>
              simp [execAct, execPut, hig, hsu, hp, actFiles,
                List.filter_cons, List.append_assoc]

/-- Splitting a list by whether an option-valued test fires partitions its
length. -/
theorem length_filter_isNone_add (f : String → Option String) (l : List String) :
    (l.filter fun r => (f r).isNone).length +
      (l.filter fun r => (f r).isSome).length = l.length := by
  induction l with
  | nil => rfl
  | cons a t ih => cases hf : f a <;> simp [List.filter_cons, hf] <;> omega

/-- C4: with no file ignored and every file due for upload, a sync in which
exactly one file's put fails returns a complete result whose `errors` lists
exactly that one formatted `{path, message}` entry and whose
`uploaded_files` has the other N−1 files — the walk is never aborted. -/
theorem c4_partial_failure (cfg : ServerConfig)
    (put_result : String → Option String) (put_mtime : String → ℚ)
    (lfs : LocalFS) (remote0 : RemoteFS)
    (local_dir remote_dir : Option String)
    (hpat : cfg.IGNORE_PATTERNS = []) (hgi : lfs.gitignore = none)
    (hl : pyOrStr local_dir cfg.LOCAL_PATH ≠ "")
    (hr : pyOrStr remote_dir cfg.REMOTE_PATH ≠ "")
    (hex : lfs.root_exists = true)
    (hone : (((actFiles (walkTrace [] "." lfs.tree)).filter fun r =>
        (put_result (pyReplace
          (posixJoin (pyOrStr remote_dir cfg.REMOTE_PATH) r) '\\' '/')).isSome)).length
        = 1) :
    ∃ res, (sync_directory cfg true put_result put_mtime lfs remote0 local_dir
        remote_dir false false).result = .ok res ∧
      res.errors.length = 1 ∧
      res.uploaded_files.length =
        (actFiles (walkTrace [] "." lfs.tree)).length - 1 ∧
      res.skipped_files = [] := by
  rw [sync_directory_ok cfg put_result put_mtime lfs remote0 local_dir
    remote_dir false false hl hr hex]
  have hpats : cfg.IGNORE_PATTERNS ++ load_gitignore_patterns lfs = [] := by
    simp [hpat, load_gitignore_patterns, hgi]
  rw [hpats]
  obtain ⟨h1, h2, h3⟩ := runTrace_noskip
    ⟨[], pyOrStr remote_dir cfg.REMOTE_PATH, false, false, put_result,
      put_mtime⟩
    (walkTrace [] "." lfs.tree)
    ⟨(ensureParts remote0 ""
        (pySplit (pyOrStr remote_dir cfg.REMOTE_PATH) "/")).1,
      { created_directories := (ensureParts remote0 ""
          (pySplit (pyOrStr remote_dir cfg.REMOTE_PATH) "/")).2 }⟩
    rfl (fun r i _ => is_ignored_nil r false)
  refine ⟨_, rfl, ?_, ?_, ?_⟩
  · rw [h2]
    simpa [WalkEnv.dest] using hone
  · rw [h1]
    have hsum := length_filter_isNone_add
      (fun r => put_result (pyReplace
        (posixJoin (pyOrStr remote_dir cfg.REMOTE_PATH) r) '\\' '/'))
      (actFiles (walkTrace [] "." lfs.tree))
    simp only [WalkEnv.dest]
    simp only [List.nil_append, List.length_nil]
    omega
  · rw [h3]

/-- A freshly created directory stats as existing. -/
theorem statExists_mkdir_self (r : RemoteFS) (p : String) :
    (r.mkdir p).statExists p = true := by
  simp [RemoteFS.mkdir, RemoteFS.statExists]

/-- `mkdir` preserves existing paths. -/
theorem statExists_mkdir_mono (r : RemoteFS) (p q : String)
    (h : r.statExists q = true) : (r.mkdir p).statExists q = true := by
  simp only [RemoteFS.mkdir, RemoteFS.statExists, Bool.or_eq_true] at h ⊢
  rcases h with h | h
  · exact Or.inl (by simpa [List.contains_cons] using Or.inr h)
  · exact Or.inr h

/-- `put` preserves existing paths. -/
theorem statExists_put_mono (r : RemoteFS) (p : String) (i : FileInfo)
    (q : String) (h : r.statExists q = true) :
    (r.put p i).statExists q = true := by
  simp only [RemoteFS.put, RemoteFS.statExists, Bool.or_eq_true] at h ⊢
  rcases h with h | h
  · exact Or.inl h
  · refine Or.inr ?_
    cases hqp : (q == p) <;> simp [List.lookup, hqp, h]

/-- `mkdir` does not change file metadata. -/
theorem fileInfo_mkdir (r : RemoteFS) (p q : String) :
    (r.mkdir p).fileInfo q = r.fileInfo q := rfl

/-- A fresh `put` is what a subsequent stat of the same path reports. -/
theorem fileInfo_put_self (r : RemoteFS) (p : String) (i : FileInfo) :
    (r.put p i).fileInfo p = some i := by
  simp [RemoteFS.put, RemoteFS.fileInfo, List.lookup]

/-- A `put` elsewhere does not change a path's metadata. -/
theorem fileInfo_put_ne (r : RemoteFS) (p q : String) (i : FileInfo)
    (h : p ≠ q) : (r.put p i).fileInfo q = r.fileInfo q := by
  have : (q == p) = false := by
    simpa using (Ne.symm h)
  simp [RemoteFS.put, RemoteFS.fileInfo, List.lookup, this]

/-- `execPut` preserves existing remote paths. -/
theorem execPut_statExists_mono (e : WalkEnv) (st : SyncState)
    (relPath dest : String) (i : FileInfo) (q : String)
    (h : st.remote.statExists q = true) :
    (execPut e st relPath dest i).remote.statExists q = true := by
  cases hp : e.put_result dest with
  | some m => simpa [execPut, hp] using h
  | none =>
      simpa [execPut, hp] using
        statExists_put_mono st.remote dest ⟨i.size, e.put_mtime dest⟩ q h

/-- Every walk step preserves existing remote paths. -/
theorem execAct_statExists_mono (e : WalkEnv) (st : SyncState) (a : WalkAct)
    (q : String) (h : st.remote.statExists q = true) :
    (execAct e st a).remote.statExists q = true := by
  cases a with
  | ignoredDir item => simpa [execAct] using h
  | ensureDir relDir =>
      by_cases hexi : st.remote.statExists (e.dest relDir) = true
      · simpa [execAct, hexi] using h
      · simpa [execAct, hexi] using
          statExists_mkdir_mono st.remote (e.dest relDir) q h
  | file r i =>
      cases hig : is_ignored r e.all_patterns with
      | true => simpa [execAct, hig] using h
      | false =>
          cases hsu : e.skip_unchanged with
          | false =>
              simpa [execAct, hig, hsu] using
                execPut_statExists_mono e st r (e.dest r) i q h
          | true =>
              cases hss : should_sync_file i (st.remote.fileInfo (e.dest r))
                  e.check_hash with
              | error msg => simpa [execAct, hig, hsu, hss] using h
              | ok b =>
                  cases b with
                  | true =>
                      simpa [execAct, hig, hsu, hss] using
                        execPut_statExists_mono e st r (e.dest r) i q h
                  | false => simpa [execAct, hig, hsu, hss] using h

/-- A whole trace run preserves existing remote paths. -/
theorem runTrace_statExists_mono (e : WalkEnv) (acts : List WalkAct) :
    ∀ (st : SyncState) (q : String), st.remote.statExists q = true →
      (runTrace e acts st).remote.statExists q = true := by
  induction acts with
  | nil => intro st q h; exact h
  | cons a rest ih =>
      intro st q h
      exact ih (execAct e st a) q (execAct_statExists_mono e st a q h)

/-- `execPut` changes no other path's metadata. -/
theorem execPut_fileInfo_frame (e : WalkEnv) (st : SyncState)
    (relPath dest : String) (i : FileInfo) (q : String) (h : dest ≠ q) :
    (execPut e st relPath dest i).remote.fileInfo q = st.remote.fileInfo q := by
  cases hp : e.put_result dest with
  | some m => simp [execPut, hp]
  | none =>
      simp [execPut, hp,
        fileInfo_put_ne st.remote dest q ⟨i.size, e.put_mtime dest⟩ h]

/-- A walk step whose file destination (if any) differs from `q` leaves the
metadata at `q` unchanged. -/
theorem execAct_fileInfo_frame (e : WalkEnv) (st : SyncState) (a : WalkAct)
    (q : String) (h : ∀ r i, a = WalkAct.file r i → e.dest r ≠ q) :
    (execAct e st a).remote.fileInfo q = st.remote.fileInfo q := by
  cases a with
  | ignoredDir item => rfl
  | ensureDir relDir =>
      by_cases hexi : st.remote.statExists (e.dest relDir) = true
      · simp [execAct, hexi]
      · simp [execAct, hexi, fileInfo_mkdir]
  | file r i =>
      have hne := h r i rfl
      cases hig : is_ignored r e.all_patterns with
      | true => simp [execAct, hig]
      | false =>
          cases hsu : e.skip_unchanged with
          | false =>
              simpa [execAct, hig, hsu] using
                execPut_fileInfo_frame e st r (e.dest r) i q hne
          | true =>
              cases hss : should_sync_file i (st.remote.fileInfo (e.dest r))
                  e.check_hash with
              | error msg => simp [execAct, hig, hsu, hss]
              | ok b =>
                  cases b with
                  | true =>
                      simpa [execAct, hig, hsu, hss] using
                        execPut_fileInfo_frame e st r (e.dest r) i q hne
                  | false => simp [execAct, hig, hsu, hss]

/-- A trace run touching only other destinations leaves the metadata at `q`
unchanged. -/
theorem runTrace_fileInfo_frame (e : WalkEnv) (acts : List WalkAct) :
    ∀ (st : SyncState) (q : String),
      (∀ r i, WalkAct.file r i ∈ acts → e.dest r ≠ q) →
      (runTrace e acts st).remote.fileInfo q = st.remote.fileInfo q := by
  induction acts with
  | nil => intro st q _; rfl
  | cons a rest ih =>
      intro st q h
      have hhead : (execAct e st a).remote.fileInfo q = st.remote.fileInfo q :=
        execAct_fileInfo_frame e st a q fun r i ha =>
          h r i (ha ▸ List.mem_cons_self a rest)
      have htail := ih (execAct e st a) q
        fun r i hm => h r i (List.mem_cons_of_mem a hm)
      calc (runTrace e (a :: rest) st).remote.fileInfo q
          = (runTrace e rest (execAct e st a)).remote.fileInfo q := rfl
        _ = (execAct e st a).remote.fileInfo q := htail
        _ = st.remote.fileInfo q := hhead

/-- Processing a non-ignored file with `skipUnchanged` on, `checkHash` off,
a succeeding put, and a server write-time within the one-second tolerance of
the local mtime leaves the remote entry at its destination current: either
it was current already (the file is skipped) or the file is uploaded and the
entry now holds its size with the server-assigned mtime. -/
theorem execAct_file_good (e : WalkEnv) (st : SyncState) (r : String)
    (i : FileInfo) (hni : is_ignored r e.all_patterns = false)
    (hsu : e.skip_unchanged = true) (hch : e.check_hash = false)
    (hput : e.put_result (e.dest r) = none)
    (hm : |i.mtime - e.put_mtime (e.dest r)| ≤ 1) :
    goodEntry (execAct e st (.file r i)).remote (e.dest r) i := by
  cases hfi : st.remote.fileInfo (e.dest r) with
  | none =>
      refine ⟨⟨i.size, e.put_mtime (e.dest r)⟩, ?_, rfl, hm⟩
      simp [execAct, execPut, hni, hsu, hch, hput, should_sync_file, hfi,
        fileInfo_put_self]
  | some ri =>
      by_cases hsz : i.size = ri.size
      · by_cases hmt : (1 : ℚ) < |i.mtime - ri.mtime|
        · refine ⟨⟨i.size, e.put_mtime (e.dest r)⟩, ?_, rfl, hm⟩
          simp [execAct, execPut, hni, hsu, hch, hput, should_sync_file, hfi,
            hsz, hmt, fileInfo_put_self]
        · refine ⟨ri, ?_, hsz.symm, not_lt.1 hmt⟩
          simp [execAct, hni, hsu, hch, should_sync_file, hfi, hsz, hmt]
      · refine ⟨⟨i.size, e.put_mtime (e.dest r)⟩, ?_, rfl, hm⟩
        simp [execAct, execPut, hni, hsu, hch, hput, should_sync_file, hfi,
          hsz, fileInfo_put_self]

/-- A relative path of a file step belongs to `actFiles`. -/
theorem mem_actFiles_of_file (acts : List WalkAct) (r : String) (i : FileInfo)
    (h : WalkAct.file r i ∈ acts) : r ∈ actFiles acts :=
  List.mem_filterMap.2 ⟨WalkAct.file r i, h, rfl⟩

/-- After a full trace run with `skipUnchanged` on, `checkHash` off, a
put collaborator that never fails and whose server write-times stay within
the one-second tolerance of the local mtimes, and pairwise-distinct file
destinations, every non-ignored file's destination entry is current for its
local data. -/
theorem runTrace_good (e : WalkEnv) (acts : List WalkAct)
    (hsu : e.skip_unchanged = true) (hch : e.check_hash = false)
    (hput : ∀ q, e.put_result q = none)
    (hmt : ∀ r i, WalkAct.file r i ∈ acts →
      is_ignored r e.all_patterns = false →
      |i.mtime - e.put_mtime (e.dest r)| ≤ 1) :
    ∀ st : SyncState, ((actFiles acts).map e.dest).Nodup →
      ∀ r i, WalkAct.file r i ∈ acts → is_ignored r e.all_patterns = false →
        goodEntry (runTrace e acts st).remote (e.dest r) i := by
  induction acts with
  | nil => intro st _ r i hm; exact absurd hm (List.not_mem_nil _)
  | cons a rest ih =>
      have hmt' : ∀ r i, WalkAct.file r i ∈ rest →
          is_ignored r e.all_patterns = false →
          |i.mtime - e.put_mtime (e.dest r)| ≤ 1 :=
        fun r i hm hni => hmt r i (List.mem_cons_of_mem _ hm) hni
      intro st hnd r i hm hni
      rcases List.mem_cons.1 hm with heq | hmem
      · subst heq
        have hgood := execAct_file_good e st r i hni hsu hch (hput _)
          (hmt r i (List.mem_cons_self _ _) hni)
        have hnotmem : e.dest r ∉ (actFiles rest).map e.dest := by
          have : (actFiles (WalkAct.file r i :: rest)).map e.dest =
              e.dest r :: (actFiles rest).map e.dest := by
            simp [actFiles]
          rw [this] at hnd
          exact (List.nodup_cons.1 hnd).1
        have hfr : (runTrace e rest
            (execAct e st (.file r i))).remote.fileInfo (e.dest r)
            = (execAct e st (.file r i)).remote.fileInfo (e.dest r) := by
          apply runTrace_fileInfo_frame
          intro r' i' hm' hcontra
          exact hnotmem (hcontra ▸
            List.mem_map_of_mem e.dest (mem_actFiles_of_file rest r' i' hm'))
        obtain ⟨ri, h1, h2, h3⟩ := hgood
        exact ⟨ri, by rw [show runTrace e (WalkAct.file r i :: rest) st =
          runTrace e rest (execAct e st (.file r i)) from rfl, hfr]; exact h1,
          h2, h3⟩
      · have hnd' : ((actFiles rest).map e.dest).Nodup := by
          cases a with
          | file r0 i0 =>
              have : (actFiles (WalkAct.file r0 i0 :: rest)).map e.dest =
                  e.dest r0 :: (actFiles rest).map e.dest := by
                simp [actFiles]
              rw [this] at hnd
              exact (List.nodup_cons.1 hnd).2
          | ignoredDir item => simpa [actFiles] using hnd
          | ensureDir relDir => simpa [actFiles] using hnd
        exact ih hmt' (execAct e st a) hnd' r i hmem hni

/-- After a trace run, every directory the walk ensured stats as existing. -/
theorem runTrace_dirs (e : WalkEnv) (acts : List WalkAct) :
    ∀ (st : SyncState) (relDir : String), WalkAct.ensureDir relDir ∈ acts →
      (runTrace e acts st).remote.statExists (e.dest relDir) = true := by
  induction acts with
  | nil => intro st relDir hm; exact absurd hm (List.not_mem_nil _)
  | cons a rest ih =>
      intro st relDir hm
      rcases List.mem_cons.1 hm with heq | hmem
      · subst heq
        have hhead : (execAct e st
            (.ensureDir relDir)).remote.statExists (e.dest relDir) = true := by
          by_cases hexi : st.remote.statExists (e.dest relDir) = true
          · simp [execAct, hexi]
          · simpa [execAct, hexi] using
              statExists_mkdir_self st.remote (e.dest relDir)
        exact runTrace_statExists_mono e rest _ _ hhead
      · exact ih (execAct e st a) relDir hmem

/-- A trace run in which every ensured directory already exists and every
non-ignored file's destination entry is already current changes nothing
remotely: it only records the pruned/ignored items and lists every
non-ignored file as skipped. -/
theorem runTrace_noop (e : WalkEnv) (acts : List WalkAct)
    (hsu : e.skip_unchanged = true) (hch : e.check_hash = false) :
    ∀ st : SyncState,
      (∀ relDir, WalkAct.ensureDir relDir ∈ acts →
        st.remote.statExists (e.dest relDir) = true) →
      (∀ r i, WalkAct.file r i ∈ acts → is_ignored r e.all_patterns = false →
        goodEntry st.remote (e.dest r) i) →
      runTrace e acts st = ⟨st.remote,
        { st.res with
          ignored_items := st.res.ignored_items ++
            traceIgnored e.all_patterns acts,
          skipped_files := st.res.skipped_files ++
            traceSkippable e.all_patterns acts }⟩ := by
  induction acts with
  | nil =>
      intro st _ _
      simp [runTrace, traceIgnored, traceSkippable]
  | cons a rest ih =>
      intro st hdir hfile
      have hrun : runTrace e (a :: rest) st = runTrace e rest (execAct e st a) :=
        rfl
      cases a with
      | ignoredDir item =>
          have hstep : execAct e st (.ignoredDir item) = ⟨st.remote,
              { st.res with ignored_items := st.res.ignored_items ++ [item] }⟩ :=
            rfl
          rw [hrun, hstep, ih _ ?_ ?_]
          · simp [traceIgnored, traceSkippable]
          · intro relDir hm
            exact hdir relDir (List.mem_cons_of_mem _ hm)
          · intro r i hm hni
            exact hfile r i (List.mem_cons_of_mem _ hm) hni
      | ensureDir relDir =>
          have hexi := hdir relDir (List.mem_cons_self _ _)
          have hstep : execAct e st (.ensureDir relDir) = st := by
            simp [execAct, hexi]
          rw [hrun, hstep, ih st ?_ ?_]
          · simp [traceIgnored, traceSkippable]
          · intro rd hm
            exact hdir rd (List.mem_cons_of_mem _ hm)
          · intro r i hm hni
            exact hfile r i (List.mem_cons_of_mem _ hm) hni
      | file r i =>
          cases hig : is_ignored r e.all_patterns with
          | true =>
              have hstep : execAct e st (.file r i) = ⟨st.remote,
                  { st.res with ignored_items :=
                      st.res.ignored_items ++ [r] }⟩ := by
                simp [execAct, hig]
              rw [hrun, hstep, ih _ ?_ ?_]
              · simp [traceIgnored, traceSkippable, hig]
              · intro rd hm
                exact hdir rd (List.mem_cons_of_mem _ hm)
              · intro r' i' hm hni
                exact hfile r' i' (List.mem_cons_of_mem _ hm) hni
          | false =>
              obtain ⟨ri, hfi, hsz, hmt⟩ :=
                hfile r i (List.mem_cons_self _ _) hig
              have hnlt : ¬ ((1 : ℚ) < |i.mtime - ri.mtime|) := not_lt.2 hmt
              have hstep : execAct e st (.file r i) = ⟨st.remote,
                  { st.res with skipped_files :=
                      st.res.skipped_files ++ [r] }⟩ := by
                simp [execAct, hig, hsu, hch, should_sync_file, hfi, hsz, hnlt]
              rw [hrun, hstep, ih _ ?_ ?_]
              · simp [traceIgnored, traceSkippable, hig]
              · intro rd hm
                exact hdir rd (List.mem_cons_of_mem _ hm)
              · intro r' i' hm hni
                exact hfile r' i' (List.mem_cons_of_mem _ hm) hni

/-- Remote-root preparation preserves existing paths. -/
theorem ensureParts_statExists_mono (parts : List String) :
    ∀ (r : RemoteFS) (cur q : String), r.statExists q = true →
      (ensureParts r cur parts).1.statExists q = true := by
  induction parts with
  | nil => intro r cur q h; exact h
  | cons part rest ih =>
      intro r cur q h
      by_cases hp : part = ""
      · simpa [ensureParts, hp] using ih r cur q h
      · by_cases hexi : r.statExists (cur ++ "/" ++ part) = true
        · simpa [ensureParts, hp, hexi] using ih r (cur ++ "/" ++ part) q h
        · simpa [ensureParts, hp, hexi] using
            ih (r.mkdir (cur ++ "/" ++ part)) (cur ++ "/" ++ part) q
              (statExists_mkdir_mono r _ q h)

/-- After remote-root preparation, every visited prefix path exists. -/
theorem ensureParts_all (parts : List String) :
    ∀ (r : RemoteFS) (cur : String), ∀ q ∈ prefixPaths cur parts,
      (ensureParts r cur parts).1.statExists q = true := by
  induction parts with
  | nil => intro r cur q hq; exact absurd hq (List.not_mem_nil _)
  | cons part rest ih =>
      intro r cur q hq
      by_cases hp : part = ""
      · rw [prefixPaths, if_pos hp] at hq
        simpa [ensureParts, hp] using ih r cur q hq
      · rw [prefixPaths, if_neg hp] at hq
        rcases List.mem_cons.1 hq with heq | hmem
        · subst heq
          by_cases hexi : r.statExists (cur ++ "/" ++ part) = true
          · simpa [ensureParts, hp, hexi] using
              ensureParts_statExists_mono rest r (cur ++ "/" ++ part) _ hexi
          · simpa [ensureParts, hp, hexi] using
              ensureParts_statExists_mono rest (r.mkdir (cur ++ "/" ++ part))
                (cur ++ "/" ++ part) _ (statExists_mkdir_self r _)
        · by_cases hexi : r.statExists (cur ++ "/" ++ part) = true
          · simpa [ensureParts, hp, hexi] using
              ih r (cur ++ "/" ++ part) q hmem
          · simpa [ensureParts, hp, hexi] using
              ih (r.mkdir (cur ++ "/" ++ part)) (cur ++ "/" ++ part) q hmem

/-- Remote-root preparation against a remote tree whose visited prefixes all
exist already creates nothing and changes nothing. -/
theorem ensureParts_noop (parts : List String) :
    ∀ (r : RemoteFS) (cur : String),
      (∀ q ∈ prefixPaths cur parts, r.statExists q = true) →
      ensureParts r cur parts = (r, []) := by
  induction parts with
  | nil => intro r cur _; rfl
  | cons part rest ih =>
      intro r cur h
      by_cases hp : part = ""
      · rw [ensureParts, if_pos hp]
        exact ih r cur fun q hq => h q (by rw [prefixPaths, if_pos hp]; exact hq)
      · have hexi : r.statExists (cur ++ "/" ++ part) = true :=
          h _ (by rw [prefixPaths, if_neg hp]; exact List.mem_cons_self _ _)
        rw [ensureParts, if_neg hp]
        simp only [hexi, if_true]
        exact ih r (cur ++ "/" ++ part) fun q hq =>
          h q (by rw [prefixPaths, if_neg hp]; exact List.mem_cons_of_mem _ hq)

/-- A trace run in which every ensured directory already exists creates no
remote directory, whatever the file steps upload: `created_directories` is
untouched. -/
theorem runTrace_created (e : WalkEnv) (acts : List WalkAct) :
    ∀ st : SyncState,
      (∀ relDir, WalkAct.ensureDir relDir ∈ acts →
        st.remote.statExists (e.dest relDir) = true) →
      (runTrace e acts st).res.created_directories =
        st.res.created_directories := by
  induction acts with
  | nil => intro st _; rfl
  | cons a rest ih =>
      intro st hdir
      have hrun : runTrace e (a :: rest) st = runTrace e rest (execAct e st a) :=
        rfl
      have hdir' : ∀ relDir, WalkAct.ensureDir relDir ∈ rest →
          (execAct e st a).remote.statExists (e.dest relDir) = true :=
        fun relDir hm => execAct_statExists_mono e st a _
          (hdir relDir (List.mem_cons_of_mem _ hm))
      rw [hrun, ih (execAct e st a) hdir']
      cases a with
      | ignoredDir item => rfl
      | ensureDir relDir =>
          have hexi := hdir relDir (List.mem_cons_self _ _)
          simp [execAct, hexi]
      | file r i =>
          cases hig : is_ignored r e.all_patterns with
          | true => simp [execAct, hig]
          | false =>
              cases hsu : e.skip_unchanged with
              | false =>
                  cases hp : e.put_result (e.dest r) <;>
                    simp [execAct, execPut, hig, hsu, hp]
              | true =>
                  cases hss : should_sync_file i
                      (st.remote.fileInfo (e.dest r)) e.check_hash with
                  | error msg => simp [execAct, hig, hsu, hss]
                  | ok b =>
                      cases b with
                      | true =>
                          cases hp : e.put_result (e.dest r) <;>
                            simp [execAct, execPut, hig, hsu, hss, hp]
                      | false => simp [execAct, hig, hsu, hss]

/-- C5 (counterexample): the claim as stated is false of the program.  One
local file `a.txt` with mtime 0; the server assigns write-time mtime 100 to
the upload (sftp.put never preserves the local time).  The second run with
`skipUnchanged=true` against the remote tree the first run produced sees
size 3 = 3 but |0 − 100| > 1 s and re-uploads: `uploadedFiles` is
`["a.txt"]`, not empty, and `skippedFiles` is empty. -/
theorem c5_counterexample :
    (sync_directory { LOCAL_PATH := "/l", REMOTE_PATH := "/r" } true
      (fun _ => none) (fun _ => 100)
      ⟨true, none, .mk .nil [("a.txt", ⟨3, 0⟩)]⟩
      (sync_directory { LOCAL_PATH := "/l", REMOTE_PATH := "/r" } true
        (fun _ => none) (fun _ => 100)
        ⟨true, none, .mk .nil [("a.txt", ⟨3, 0⟩)]⟩
        ⟨[], []⟩ none none true false).remote
      none none true false).result
    = .ok { uploaded_files := ["a.txt"] } := by
  have h1 : (sync_directory { LOCAL_PATH := "/l", REMOTE_PATH := "/r" } true
      (fun _ => none) (fun _ => 100)
      ⟨true, none, .mk .nil [("a.txt", ⟨3, 0⟩)]⟩
      ⟨[], []⟩ none none true false).remote
      = ⟨["/r"], [("/r/a.txt", ⟨3, 100⟩)]⟩ := rfl
  rw [h1]
  rw [sync_directory_ok { LOCAL_PATH := "/l", REMOTE_PATH := "/r" }
    (fun _ => none) (fun _ => 100)
    ⟨true, none, .mk .nil [("a.txt", ⟨3, 0⟩)]⟩
    ⟨["/r"], [("/r/a.txt", ⟨3, 100⟩)]⟩ none none true false
    (by decide) (by decide) rfl]
  show Except.ok (runTrace
      ⟨[], "/r", true, false, fun _ => none, fun _ => 100⟩
      [WalkAct.file "a.txt" ⟨3, 0⟩]
      ⟨⟨["/r"], [("/r/a.txt", ⟨3, 100⟩)]⟩, { created_directories := [] }⟩).res
    = Except.ok { uploaded_files := ["a.txt"] }
  have hss : should_sync_file ⟨3, 0⟩ (some ⟨3, 100⟩) false = .ok true := by
    norm_num [should_sync_file]
  have hfi : (RemoteFS.mk ["/r"] [("/r/a.txt", ⟨3, 100⟩)]).fileInfo
      (WalkEnv.dest ⟨[], "/r", true, false, fun _ => none, fun _ => 100⟩
        "a.txt") = some ⟨3, 100⟩ := rfl
  rw [show runTrace ⟨[], "/r", true, false, fun _ => none, fun _ => 100⟩
      [WalkAct.file "a.txt" ⟨3, 0⟩]
      ⟨⟨["/r"], [("/r/a.txt", ⟨3, 100⟩)]⟩, { created_directories := [] }⟩
    = execAct ⟨[], "/r", true, false, fun _ => none, fun _ => 100⟩
      ⟨⟨["/r"], [("/r/a.txt", ⟨3, 100⟩)]⟩, { created_directories := [] }⟩
      (WalkAct.file "a.txt" ⟨3, 0⟩) from rfl]
  simp [execAct, execPut, is_ignored_nil, hfi, hss]

/-- C5 (amended): on the second of two runs with `skipUnchanged` on (and
`checkHash` off), `createdDirectories` is always empty — directory
preparation stats each prefix and creates only when absent, so a
re-materialised remote tree yields no creation; and `uploadedFiles` is
empty with every non-ignored file in `skippedFiles` exactly under the
further assumption that the server-assigned write-time mtime each upload
leaves is within 1.0 second of the file's local mtime (which sftp.put does
not guarantee: it never sets remote times).  The distinct-destinations
hypothesis holds for any real filesystem tree. -/
theorem c5_idempotent (cfg : ServerConfig) (lfs : LocalFS) (remote0 : RemoteFS)
    (put_mtime : String → ℚ) (local_dir remote_dir : Option String)
    (hl : pyOrStr local_dir cfg.LOCAL_PATH ≠ "")
    (hr : pyOrStr remote_dir cfg.REMOTE_PATH ≠ "")
    (hex : lfs.root_exists = true)
    (hnd : ((actFiles (walkTrace
        (cfg.IGNORE_PATTERNS ++ load_gitignore_patterns lfs) "." lfs.tree)).map
        fun r => pyReplace
          (posixJoin (pyOrStr remote_dir cfg.REMOTE_PATH) r) '\\' '/').Nodup) :
    (∃ res2,
      (sync_directory cfg true (fun _ => none) put_mtime lfs
        (sync_directory cfg true (fun _ => none) put_mtime lfs remote0
          local_dir remote_dir true false).remote
        local_dir remote_dir true false).result = .ok res2 ∧
      res2.created_directories = []) ∧
    ((∀ r i, WalkAct.file r i ∈ walkTrace
        (cfg.IGNORE_PATTERNS ++ load_gitignore_patterns lfs) "." lfs.tree →
      is_ignored r (cfg.IGNORE_PATTERNS ++ load_gitignore_patterns lfs)
        = false →
      |i.mtime - put_mtime (pyReplace
        (posixJoin (pyOrStr remote_dir cfg.REMOTE_PATH) r) '\\' '/')| ≤ 1) →
     ∃ res2,
      (sync_directory cfg true (fun _ => none) put_mtime lfs
        (sync_directory cfg true (fun _ => none) put_mtime lfs remote0
          local_dir remote_dir true false).remote
        local_dir remote_dir true false).result = .ok res2 ∧
      res2.uploaded_files = [] ∧
      res2.created_directories = [] ∧
      res2.skipped_files = traceSkippable
        (cfg.IGNORE_PATTERNS ++ load_gitignore_patterns lfs)
        (walkTrace (cfg.IGNORE_PATTERNS ++ load_gitignore_patterns lfs) "."
          lfs.tree)) := by
  rw [sync_directory_ok cfg (fun _ => none) put_mtime lfs remote0 local_dir
    remote_dir true false hl hr hex]
  rw [sync_directory_ok cfg (fun _ => none) put_mtime lfs _ local_dir
    remote_dir true false hl hr hex]
  dsimp only
  set pats := cfg.IGNORE_PATTERNS ++ load_gitignore_patterns lfs with hpats
  set rp := pyOrStr remote_dir cfg.REMOTE_PATH with hrp
  set tr := walkTrace pats "." lfs.tree with htr
  set e : WalkEnv := ⟨pats, rp, true, false, fun _ => none, put_mtime⟩ with he
  set st0 : SyncState :=
    ⟨(ensureParts remote0 "" (pySplit rp "/")).1,
      { created_directories := (ensureParts remote0 "" (pySplit rp "/")).2 }⟩
    with hst0
  have hpre2 : ensureParts (runTrace e tr st0).remote "" (pySplit rp "/") =
      ((runTrace e tr st0).remote, []) := by
    apply ensureParts_noop
    intro q hq
    exact runTrace_statExists_mono e tr st0 q (ensureParts_all _ remote0 "" q hq)
  rw [hpre2]
  dsimp only
  constructor
  · exact ⟨_, rfl,
      runTrace_created e tr
        ⟨(runTrace e tr st0).remote, { created_directories := [] }⟩
        (fun relDir hm => runTrace_dirs e tr st0 relDir hm)⟩
  · intro hmt
    have hnoop := runTrace_noop e tr rfl rfl
      ⟨(runTrace e tr st0).remote, { created_directories := [] }⟩
      (fun relDir hm => runTrace_dirs e tr st0 relDir hm)
      (fun r i hm hni =>
        runTrace_good e tr rfl rfl (fun _ => rfl) hmt st0 hnd r i hm hni)
    rw [hnoop]
    exact ⟨_, rfl, rfl, rfl, rfl⟩

/-- C4 witness: two files to upload, the put to `/r/b.txt` fails — the run
completes with exactly one error entry and one (= 2−1) uploaded file. -/
theorem c4_witness :
    ((actFiles (walkTrace [] "."
        (LTree.mk .nil [("a.txt", ⟨1, 1⟩), ("b.txt", ⟨2, 2⟩)]))).filter (fun r =>
        ((fun p => if p = "/r/b.txt" then some "Permission denied" else none)
          (pyReplace (posixJoin (pyOrStr none "/r") r) '\\' '/')).isSome)).length
      = 1 ∧
    ∃ res, (sync_directory { LOCAL_PATH := "/l", REMOTE_PATH := "/r" } true
        (fun p => if p = "/r/b.txt" then some "Permission denied" else none)
        (fun _ => 0)
        ⟨true, none, .mk .nil [("a.txt", ⟨1, 1⟩), ("b.txt", ⟨2, 2⟩)]⟩
        ⟨[], []⟩ none none false false).result = .ok res ∧
      res.errors.length = 1 ∧
      res.uploaded_files.length = (actFiles (walkTrace [] "."
        (LTree.mk .nil [("a.txt", ⟨1, 1⟩), ("b.txt", ⟨2, 2⟩)]))).length - 1 ∧
      res.skipped_files = [] :=
  ⟨by decide,
    c4_partial_failure { LOCAL_PATH := "/l", REMOTE_PATH := "/r" }
      (fun p => if p = "/r/b.txt" then some "Permission denied" else none)
      (fun _ => 0)
      ⟨true, none, .mk .nil [("a.txt", ⟨1, 1⟩), ("b.txt", ⟨2, 2⟩)]⟩
      ⟨[], []⟩ none none rfl rfl (by decide) (by decide) rfl (by decide)⟩

/-- C5 witness (amended theorem): a tree with a subdirectory and an ignored
`*.log` file, with server write-times equal to the local mtimes; the second
run of the first conjunct creates nothing, and under the mtime-tolerance
hypothesis the second run also uploads nothing and skips exactly `a.txt`
and `sub/b.txt`. -/
theorem c5_witness :
    ((actFiles (walkTrace ["*.log"] "."
        (LTree.mk (.cons "sub" (.mk .nil [("b.txt", ⟨2, 5⟩)]) .nil)
          [("a.txt", ⟨3, 5⟩), ("x.log", ⟨1, 1⟩)]))).map
        fun r => pyReplace (posixJoin (pyOrStr none "/r") r) '\\' '/').Nodup ∧
    ∃ res2,
      (sync_directory
        { LOCAL_PATH := "/l", REMOTE_PATH := "/r",
          IGNORE_PATTERNS := ["*.log"] } true (fun _ => none) (fun _ => 5)
        ⟨true, none, .mk (.cons "sub" (.mk .nil [("b.txt", ⟨2, 5⟩)]) .nil)
          [("a.txt", ⟨3, 5⟩), ("x.log", ⟨1, 1⟩)]⟩
        (sync_directory
          { LOCAL_PATH := "/l", REMOTE_PATH := "/r",
            IGNORE_PATTERNS := ["*.log"] } true (fun _ => none) (fun _ => 5)
          ⟨true, none, .mk (.cons "sub" (.mk .nil [("b.txt", ⟨2, 5⟩)]) .nil)
            [("a.txt", ⟨3, 5⟩), ("x.log", ⟨1, 1⟩)]⟩
          ⟨[], []⟩ none none true false).remote
        none none true false).result = .ok res2 ∧
      res2.uploaded_files = [] ∧
      res2.created_directories = [] ∧
      res2.skipped_files = traceSkippable ["*.log"]
        (walkTrace ["*.log"] "."
          (LTree.mk (.cons "sub" (.mk .nil [("b.txt", ⟨2, 5⟩)]) .nil)
            [("a.txt", ⟨3, 5⟩), ("x.log", ⟨1, 1⟩)])) :=
  ⟨by decide,
    (c5_idempotent
      { LOCAL_PATH := "/l", REMOTE_PATH := "/r", IGNORE_PATTERNS := ["*.log"] }
      ⟨true, none, .mk (.cons "sub" (.mk .nil [("b.txt", ⟨2, 5⟩)]) .nil)
        [("a.txt", ⟨3, 5⟩), ("x.log", ⟨1, 1⟩)]⟩
      ⟨[], []⟩ (fun _ => 5) none none (by decide) (by decide) rfl
      (by decide)).2
      (by
        intro r i hm hig
        have hm' : WalkAct.file r i ∈
            [WalkAct.ensureDir "sub", WalkAct.file "a.txt" ⟨3, 5⟩,
              WalkAct.file "x.log" ⟨1, 1⟩,
              WalkAct.file "sub/b.txt" ⟨2, 5⟩] := hm
        simp only [List.mem_cons, List.not_mem_nil, or_false] at hm'
        rcases hm' with h | h | h | h
        · simp at h
        · injection h with h1 h2
          subst h1
          subst h2
          simp
        · injection h with h1 h2
          subst h1
          exact absurd hig (by decide)
        · injection h with h1 h2
          subst h1
          subst h2
          simp)⟩

end SftpSync
